import Mathlib

/-!
Verification of the astronomical parameter engine of `pytides` (`pytides/astro.py`).

The numeric domain of the Python source is IEEE `float`; following the usual
shallow-embedding convention the arithmetic is modelled exactly, over `ℚ` for
the rational-arithmetic skeleton (timestamp conversion, polynomial tables,
polynomial evaluation, the `% 360.0` normalization) and over `ℝ` for the
trigonometric tier of Schureman auxiliary angles.  Fallible Python code
(expressions that can raise) is modelled with `Option`.
-/

namespace Pytides

/-- A civil timestamp, mirroring the fields of a Python `datetime` value that
`astro.py` reads: `year, month, day, hour, minute, second, microsecond`. -/
structure Timestamp where
  year : ℕ
  month : ℕ
  day : ℕ
  hour : ℕ
  minute : ℕ
  second : ℕ
  microsecond : ℕ
deriving DecidableEq

/-- `s2d` from the source: convert a sexagesimal angle into decimal degrees.
The Python signature has defaults `arcmins = 0, arcsecs = 0, mas = 0, muas = 0`;
call sites here pass the zeros explicitly. -/
def s2d (degs arcmins arcsecs mas muas : ℚ) : ℚ :=
  degs + (arcmins / 60) + (arcsecs / (60 * 60)) + (mas / (60 * 60 * 1e3))
    + (muas / (60 * 60 * 1e6))

/-- Index-carrying accumulator for `polynomial`: the tail of the coefficient
list starting at degree `i`.  Mirrors `enumerate(coefficients)` in the source. -/
def polyAux {K : Type} [Field K] (x : K) : ℕ → List K → K
  | _, [] => 0
  | i, c :: cs => c * x ^ i + polyAux x (i + 1) cs

/-- The source's `polynomial(coefficients, argument)`:
`sum(c * (argument ** i) for i,c in enumerate(coefficients))`.
Natural powers only, so this is total (Python's `x ** i` for `i ≥ 0` never
raises; `0.0 ** 0 = 1.0` matches `x ^ 0 = 1`). -/
def polynomial {K : Type} [Field K] (coefficients : List K) (argument : K) : K :=
  polyAux argument 0 coefficients

/-- One term `c * i * (argument ** (i-1))` of the source's `d_polynomial`.
For `i = 0` Python computes `argument ** (-1)` *before* multiplying by `i = 0`,
and `0.0 ** -1` raises `ZeroDivisionError`; that failure is modelled by `none`.
For `argument ≠ 0`, `zpow` agrees with Python's float power on integer
exponents. -/
def dTerm (x : ℚ) (i : ℕ) (c : ℚ) : Option ℚ :=
  if x = 0 ∧ i = 0 then none else some (c * (i : ℚ) * x ^ ((i : ℤ) - 1))

/-- Index-carrying accumulator for `d_polynomial`. -/
def dPolyAux (x : ℚ) : ℕ → List ℚ → Option ℚ
  | _, [] => some 0
  | i, c :: cs => do
      let t ← dTerm x i c
      let r ← dPolyAux x (i + 1) cs
      pure (t + r)

/-- The source's `d_polynomial(coefficients, argument)`:
`sum(c * i * (argument ** (i-1)) for i,c in enumerate(coefficients))`.
Returns `none` exactly when the Python code raises `ZeroDivisionError`
(argument `0` with a nonempty coefficient list, via the `i = 0` term). -/
def d_polynomial (coefficients : List ℚ) (argument : ℚ) : Option ℚ :=
  dPolyAux argument 0 coefficients

/-- `JD(t)` from the source (Meeus formula 7.1): the Julian Date of `t`.
`math.floor` on a float is `Int.floor` on the exact value. -/
def JD (t : Timestamp) : ℚ :=
  let Y0 : ℤ := t.year
  let M0 : ℤ := t.month
  let D : ℚ := (t.day : ℚ) + (t.hour : ℚ) / 24 + (t.minute : ℚ) / (24 * 60)
    + (t.second : ℚ) / (24 * 60 * 60) + (t.microsecond : ℚ) / (24 * 60 * 60 * 1e6)
  let Y : ℤ := if M0 ≤ 2 then Y0 - 1 else Y0
  let M : ℤ := if M0 ≤ 2 then M0 + 12 else M0
  let A : ℤ := ⌊(Y : ℚ) / 100⌋
  let B : ℤ := 2 - A + ⌊(A : ℚ) / 4⌋
  ((⌊(365.25 : ℚ) * ((Y : ℚ) + 4716)⌋ : ℤ) : ℚ) + ((⌊(30.6001 : ℚ) * ((M : ℚ) + 1)⌋ : ℤ) : ℚ)
    + D + (B : ℚ) - 1524.5

/-- `T(t)` from the source (Meeus formula 11.1): Julian centuries since J2000. -/
def T (t : Timestamp) : ℚ :=
  (JD t - 2451545.0) / 36525

/-- Python's `x % 360.0` on exact values: the representative of `x` in
`[0, 360)` (Python's `%` takes the sign of the divisor). -/
def mod360 (x : ℚ) : ℚ :=
  x - 360 * ⌊x / 360⌋

/-- Python's `x % 360.0` at the real-number tier (for the trigonometric
Schureman angles). -/
noncomputable def mod360R (x : ℝ) : ℝ :=
  x - 360 * ⌊x / 360⌋

/-- Meeus formula 21.3 before the unit change: the raw
`terrestrial_obliquity_coefficients` tuple of the source. -/
def terrestrial_obliquity_raw : List ℚ :=
  [s2d 23 26 21.448 0 0,
   -(s2d 0 0 4680.93 0 0),
   -(s2d 0 0 1.55 0 0),
   s2d 0 0 1999.25 0 0,
   -(s2d 0 0 51.38 0 0),
   -(s2d 0 0 249.67 0 0),
   -(s2d 0 0 39.05 0 0),
   s2d 0 0 7.12 0 0,
   s2d 0 0 27.87 0 0,
   s2d 0 0 5.79 0 0,
   s2d 0 0 2.45 0 0]

/-- The source's rebinding
`terrestrial_obliquity_coefficients = [c * (1e-2) ** i for i,c in enumerate(...)]`:
adjust the coefficients for parameter T rather than U. -/
def terrestrial_obliquity_coefficients : List ℚ :=
  terrestrial_obliquity_raw.enum.map fun ic => ic.2 * (1e-2 : ℚ) ^ ic.1

/-- `solar_perigee_coefficients` from the source (difference of Meeus formulae
24.2 and 24.3, kept exactly as the source writes them). -/
def solar_perigee_coefficients : List ℚ :=
  [280.46645 - 357.52910,
   36000.76932 - 35999.05030,
   0.0003032 + 0.0001559,
   0.00000048]

/-- `solar_longitude_coefficients` from the source (Meeus formula 24.2). -/
def solar_longitude_coefficients : List ℚ :=
  [280.46645, 36000.76983, 0.0003032]

/-- `lunar_inclination_coefficients` from the source (JPL Horizon constant). -/
def lunar_inclination_coefficients : List ℚ :=
  [5.145]

/-- `lunar_longitude_coefficients` from the source (Meeus formula 45.1).
In the source the last element is written across two lines with no comma
between `1/538841.0` and `-1/65194000.0`, so the tuple has exactly four
elements and its last element is the difference of the two literals. -/
def lunar_longitude_coefficients : List ℚ :=
  [218.3164591,
   481267.88134236,
   -0.0013268,
   1 / 538841 - 1 / 65194000]

/-- `lunar_node_coefficients` from the source (Meeus formula 45.7). -/
def lunar_node_coefficients : List ℚ :=
  [125.0445550, -1934.1361849, 0.0020762, 1 / 467410, -1 / 60616000]

/-- `lunar_perigee_coefficients` from the source (Meeus, unnumbered formula
directly preceding 45.7). -/
def lunar_perigee_coefficients : List ℚ :=
  [83.3532430, 4069.0137111, -0.0103238, -1 / 80053, 1 / 18999000]

/-- Python's `math.radians`: degrees to radians. -/
noncomputable def radians (d : ℝ) : ℝ := d * (Real.pi / 180)

/-- Python's `math.degrees`: radians to degrees. -/
noncomputable def degrees (r : ℝ) : ℝ := r * (180 / Real.pi)

/-- The source's `_I(N, i, omega)`: Schureman's lunar orbital inclination to
the celestial equator (notes on Table 6).  Python's `math.acos` raises outside
`[-1, 1]`; the argument here always lies in `[-1, 1]`, where `Real.arccos`
agrees with it. -/
noncomputable def _I (N i omega : ℝ) : ℝ :=
  let N' := radians N
  let i' := radians i
  let omega' := radians omega
  let cosI := Real.cos i' * Real.cos omega' - Real.sin i' * Real.sin omega' * Real.cos N'
  degrees (Real.arccos cosI)

/-- The source's `_xi(N, i, omega)`: Schureman's longitude correction. -/
noncomputable def _xi (N i omega : ℝ) : ℝ :=
  let N5 := radians N * 0.5
  let i' := radians i
  let omega' := radians omega
  let e1 := Real.arctan (Real.cos (0.5 * (omega' - i')) / Real.cos (0.5 * (omega' + i'))
    * Real.tan N5) - N5
  let e2 := Real.arctan (Real.sin (0.5 * (omega' - i')) / Real.sin (0.5 * (omega' + i'))
    * Real.tan N5) - N5
  degrees (-(e1 + e2))

/-- The source's `_nu(N, i, omega)`: the companion correction, the difference
of the same two arctangent terms as `_xi`. -/
noncomputable def _nu (N i omega : ℝ) : ℝ :=
  let N5 := radians N * 0.5
  let i' := radians i
  let omega' := radians omega
  let e1 := Real.arctan (Real.cos (0.5 * (omega' - i')) / Real.cos (0.5 * (omega' + i'))
    * Real.tan N5) - N5
  let e2 := Real.arctan (Real.sin (0.5 * (omega' - i')) / Real.sin (0.5 * (omega' + i'))
    * Real.tan N5) - N5
  degrees (e1 - e2)

/-- The source's `_nup(N, i, omega)` (Schureman equation 224), with the fixed
solar coefficient constant `0.3347`. -/
noncomputable def _nup (N i omega : ℝ) : ℝ :=
  let I' := radians (_I N i omega)
  let nu' := radians (_nu N i omega)
  let sin2i := Real.sin (2 * I')
  degrees (Real.arctan (sin2i * Real.sin nu' / (sin2i * Real.cos nu' + 0.3347)))

/-- The source's `_nupp(N, i, omega)` (Schureman equation 232), with the fixed
constant `0.0727`. -/
noncomputable def _nupp (N i omega : ℝ) : ℝ :=
  let I' := radians (_I N i omega)
  let nu' := radians (_nu N i omega)
  let tan2nupp := Real.sin I' ^ 2 * Real.sin (2 * nu')
    / (Real.sin I' ^ 2 * Real.cos (2 * nu') + 0.0727)
  degrees (0.5 * Real.arctan tan2nupp)

/-- An `AstronomicalParameter(value, speed)` whose two components are rational
results of the source's float arithmetic (the eight polynomial-table entries
and the composite `T+h-s`, whose speeds are always present). -/
structure QParam where
  value : ℚ
  speed : ℚ
deriving DecidableEq

/-- An `AstronomicalParameter(value, speed)` whose value comes from the
trigonometric tier; its `speed` field mirrors the namedtuple's `None`. -/
structure RParam where
  value : ℝ
  speed : Option ℝ

/-- The mapping returned by `astro`, one field per dictionary key:
`s, h, p, N, pp, '90' (ninety), omega, i, I, xi, nu, nup, nupp,
'T+h-s' (Ths), P`. -/
structure ParamSet where
  s : QParam
  h : QParam
  p : QParam
  N : QParam
  pp : QParam
  ninety : QParam
  omega : QParam
  i : QParam
  I : RParam
  xi : RParam
  nu : RParam
  nup : RParam
  nupp : RParam
  Ths : QParam
  P : RParam

/-- The source's `dT_dHour = 1 / (24 * 365.25 * 100)`: Julian centuries per
hour. -/
def dT_dHour : ℚ := 1 / (24 * 365.25 * 100)

/-- The body of the `POLYNOMIALS` loop in `astro`:
`AstronomicalParameter(polynomial(coefficients, Tt) % 360.0,
d_polynomial(coefficients, Tt) * dT_dHour)`, `none` when `d_polynomial`
raises. -/
def polyEntry (coefficients : List ℚ) (Tt : ℚ) : Option QParam :=
  (d_polynomial coefficients Tt).map fun d =>
    QParam.mk (mod360 (polynomial coefficients Tt)) (d * dT_dHour)

/-- The source's `astro(t)`: the complete parameter set, or `none` when the
Python code raises (`d_polynomial` at `T(t) = 0`).  The `POLYNOMIALS` dict is
iterated entry by entry (`'90'` has the inline table `(90.0,)`); the Schureman
tier is applied to the values of `N`, `i`, `omega`; then the two composite
entries are added. -/
noncomputable def astro (t : Timestamp) : Option ParamSet := do
  let Tt := T t
  let ps ← polyEntry lunar_longitude_coefficients Tt
  let ph ← polyEntry solar_longitude_coefficients Tt
  let pPerigee ← polyEntry lunar_perigee_coefficients Tt
  let pNode ← polyEntry lunar_node_coefficients Tt
  let pSolarPerigee ← polyEntry solar_perigee_coefficients Tt
  let pNinety ← polyEntry [90] Tt
  let pOmega ← polyEntry terrestrial_obliquity_coefficients Tt
  let pIncl ← polyEntry lunar_inclination_coefficients Tt
  let Nv : ℝ := pNode.value
  let iv : ℝ := pIncl.value
  let ov : ℝ := pOmega.value
  let JDt := JD t
  let hourValue : ℚ := (JDt - (⌊JDt⌋ : ℚ)) * 360
  let xiEntry : RParam := ⟨mod360R (_xi Nv iv ov), none⟩
  pure
    { s := ps, h := ph, p := pPerigee, N := pNode, pp := pSolarPerigee,
      ninety := pNinety, omega := pOmega, i := pIncl,
      I := ⟨mod360R (_I Nv iv ov), none⟩,
      xi := xiEntry,
      nu := ⟨mod360R (_nu Nv iv ov), none⟩,
      nup := ⟨mod360R (_nup Nv iv ov), none⟩,
      nupp := ⟨mod360R (_nupp Nv iv ov), none⟩,
      Ths := ⟨hourValue + ph.value - ps.value, 15 + ph.speed - ps.speed⟩,
      P := ⟨mod360R ((pPerigee.value : ℝ) - xiEntry.value), none⟩ }

/-- Modelled from the spec: `EvaluatePolynomialDerivative` term
`c_i * i * x^(i-1)`, "the `i = 0` term contributes zero". -/
def specDerivTerm {K : Type} [Field K] (x : K) (i : ℕ) (c : K) : K :=
  if i = 0 then 0 else c * (i : K) * x ^ (i - 1)

/-- Index-carrying accumulator for `specDerivSum`. -/
def specDerivAux {K : Type} [Field K] (x : K) : ℕ → List K → K
  | _, [] => 0
  | i, c :: cs => specDerivTerm x i c + specDerivAux x (i + 1) cs

/-- Modelled from the spec: `EvaluatePolynomialDerivative(coefficients, x)` as
the spec words it, `sum(c_i * i * x^(i-1))` with the `i = 0` term contributing
zero — total, unlike the source's `d_polynomial`. -/
def specDerivSum {K : Type} [Field K] (cs : List K) (x : K) : K :=
  specDerivAux x 0 cs

/-- The parameter set `astro` produces whenever it does not raise, with each
`d_polynomial` result written through the total sum `specDerivSum`
(`astro_eq_total` proves the two agree away from `T(t) = 0`). -/
noncomputable def astroTotal (t : Timestamp) : ParamSet :=
  let Tt := T t
  let mk := fun cs => QParam.mk (mod360 (polynomial cs Tt)) (specDerivSum cs Tt * dT_dHour)
  let ps := mk lunar_longitude_coefficients
  let ph := mk solar_longitude_coefficients
  let pPerigee := mk lunar_perigee_coefficients
  let pNode := mk lunar_node_coefficients
  let pSolarPerigee := mk solar_perigee_coefficients
  let pNinety := mk [90]
  let pOmega := mk terrestrial_obliquity_coefficients
  let pIncl := mk lunar_inclination_coefficients
  let Nv : ℝ := pNode.value
  let iv : ℝ := pIncl.value
  let ov : ℝ := pOmega.value
  let JDt := JD t
  let hourValue : ℚ := (JDt - (⌊JDt⌋ : ℚ)) * 360
  let xiEntry : RParam := ⟨mod360R (_xi Nv iv ov), none⟩
  { s := ps, h := ph, p := pPerigee, N := pNode, pp := pSolarPerigee,
    ninety := pNinety, omega := pOmega, i := pIncl,
    I := ⟨mod360R (_I Nv iv ov), none⟩,
    xi := xiEntry,
    nu := ⟨mod360R (_nu Nv iv ov), none⟩,
    nup := ⟨mod360R (_nup Nv iv ov), none⟩,
    nupp := ⟨mod360R (_nupp Nv iv ov), none⟩,
    Ths := ⟨hourValue + ph.value - ps.value, 15 + ph.speed - ps.speed⟩,
    P := ⟨mod360R ((pPerigee.value : ℝ) - xiEntry.value), none⟩ }

/-- The J2000 epoch timestamp `2000-01-01T12:00:00`. -/
def epochJ2000 : Timestamp := ⟨2000, 1, 1, 12, 0, 0, 0⟩

/-- The sample timestamp `2000-01-02T00:00:00`, where `T(t) ≠ 0`. -/
def tSample : Timestamp := ⟨2000, 1, 2, 0, 0, 0, 0⟩

/-- The timestamp `2000-01-01T11:59:59`, one second before the J2000 epoch. -/
def tBeforeNoon : Timestamp := ⟨2000, 1, 1, 11, 59, 59, 0⟩

/-- Projection for stating counterexamples: the `'90'` entry of `astro t`. -/
noncomputable def ninetyEntryAt (t : Timestamp) : Option QParam :=
  (astro t).map fun a => a.ninety

/-- Projection for stating counterexamples: the `'P'` entry of `astro t`. -/
noncomputable def pEntryAt (t : Timestamp) : Option RParam :=
  (astro t).map fun a => a.P

/-- The source's `polynomial` as a real function of a real argument, the
rational coefficient list cast pointwise (float values are reals). -/
noncomputable def polyFunR (cs : List ℚ) : ℝ → ℝ :=
  fun y => polynomial (cs.map fun c => (c : ℝ)) y

/-- The Gregorian leap-year rule of the proleptic civil calendar (the rule
Python's `datetime` validates dates against). -/
def isLeap (y : ℕ) : Prop :=
  (y % 4 = 0 ∧ y % 100 ≠ 0) ∨ y % 400 = 0

instance (y : ℕ) : Decidable (isLeap y) := by
  unfold isLeap; infer_instance

/-- Number of days in a month of the proleptic Gregorian calendar. -/
def daysInMonth (y m : ℕ) : ℕ :=
  if m = 2 then (if isLeap y then 29 else 28)
  else if m = 4 ∨ m = 6 ∨ m = 9 ∨ m = 11 then 30
  else 31

/-- A valid civil timestamp: an in-range proleptic-Gregorian date (Python
`datetime`'s year range `1..9999`) with in-range time fields. -/
def Valid (t : Timestamp) : Prop :=
  1 ≤ t.year ∧ t.year ≤ 9999 ∧ 1 ≤ t.month ∧ t.month ≤ 12 ∧
    1 ≤ t.day ∧ t.day ≤ daysInMonth t.year t.month ∧
    t.hour ≤ 23 ∧ t.minute ≤ 59 ∧ t.second ≤ 59 ∧ t.microsecond ≤ 999999

instance (t : Timestamp) : Decidable (Valid t) := by
  unfold Valid; infer_instance

/-- Calendar (lexicographic field-by-field) order on timestamps. -/
def calLt (a b : Timestamp) : Prop :=
  a.year < b.year ∨ (a.year = b.year ∧ (a.month < b.month ∨ (a.month = b.month ∧
    (a.day < b.day ∨ (a.day = b.day ∧ (a.hour < b.hour ∨ (a.hour = b.hour ∧
      (a.minute < b.minute ∨ (a.minute = b.minute ∧ (a.second < b.second ∨
        (a.second = b.second ∧ a.microsecond < b.microsecond)))))))))))

instance (a b : Timestamp) : Decidable (calLt a b) := by
  unfold calLt; infer_instance

/-- Microseconds of `t` since its midnight. -/
def totalMicros (t : Timestamp) : ℕ :=
  ((t.hour * 60 + t.minute) * 60 + t.second) * 1000000 + t.microsecond

/-- The whole-day part of the Meeus formula `JD`: all terms except the
intra-day time fraction.  An integer. -/
def JDwhole (y m d : ℕ) : ℤ :=
  let Y : ℤ := if (m : ℤ) ≤ 2 then (y : ℤ) - 1 else (y : ℤ)
  let M : ℤ := if (m : ℤ) ≤ 2 then (m : ℤ) + 12 else (m : ℤ)
  let A : ℤ := ⌊(Y : ℚ) / 100⌋
  let B : ℤ := 2 - A + ⌊(A : ℚ) / 4⌋
  ⌊(365.25 : ℚ) * ((Y : ℚ) + 4716)⌋ + ⌊(30.6001 : ℚ) * ((M : ℚ) + 1)⌋ + d + B

/-- First-of-month whole-day value indexed by `k = 12·year + (month − 1)`. -/
def monthIdxJD (k : ℕ) : ℤ :=
  JDwhole (k / 12) (k % 12 + 1) 1

/-- The instant just before the 1999→2000 rollover. -/
def tRollA : Timestamp := ⟨1999, 12, 31, 23, 59, 59, 999999⟩

/-- The instant just after the 1999→2000 rollover. -/
def tRollB : Timestamp := ⟨2000, 1, 1, 0, 0, 0, 0⟩

/-- Away from argument `0`, `d_polynomial` succeeds and returns exactly the
spec's term-by-term derivative sum. -/
theorem d_polynomial_eq_specDerivSum (cs : List ℚ) (x : ℚ) (hx : x ≠ 0) :
    d_polynomial cs x = some (specDerivSum cs x) := by
  suffices h : ∀ i, dPolyAux x i cs = some (specDerivAux x i cs) from h 0
  induction cs with
  | nil => intro i; rfl
  | cons c cs ih =>
      intro i
      have hterm : dTerm x i c = some (specDerivTerm x i c) := by
        cases i with
        | zero => simp [dTerm, specDerivTerm, hx]
        | succ j =>
            have h1 : ((j + 1 : ℕ) : ℤ) - 1 = (j : ℤ) := by push_cast; ring
            simp [dTerm, specDerivTerm, h1, zpow_natCast]
      simp [dPolyAux, specDerivAux, hterm, ih (i + 1)]

/-- On a nonempty coefficient list at argument `0`, `d_polynomial` raises. -/
theorem d_polynomial_cons_zero (c : ℚ) (cs : List ℚ) :
    d_polynomial (c :: cs) 0 = none := by
  simp [d_polynomial, dPolyAux, dTerm]

/-- Away from argument `0`, a `POLYNOMIALS` loop iteration succeeds with the
normalized value and the rescaled derivative. -/
theorem polyEntry_eq (cs : List ℚ) (x : ℚ) (hx : x ≠ 0) :
    polyEntry cs x =
      some (QParam.mk (mod360 (polynomial cs x)) (specDerivSum cs x * dT_dHour)) := by
  rw [polyEntry, d_polynomial_eq_specDerivSum cs x hx, Option.map_some']

/-- When `T(t) ≠ 0`, `astro` returns and its result is `astroTotal t`. -/
theorem astro_eq_total (t : Timestamp) (hT : T t ≠ 0) :
    astro t = some (astroTotal t) := by
  rw [astro]
  simp only [polyEntry_eq _ _ hT, Option.some_bind]
  rfl

/-- At `T(t) = 0`, `astro` raises: the first `d_polynomial` call fails. -/
theorem astro_eq_none (t : Timestamp) (hT : T t = 0) :
    astro t = none := by
  rw [astro, hT]
  rw [show polyEntry lunar_longitude_coefficients 0 = none by
    simp [polyEntry, lunar_longitude_coefficients, d_polynomial_cons_zero]]
  rfl

/-- Inversion: a returned parameter set forces `T(t) ≠ 0` and is `astroTotal`. -/
theorem astro_some_inv (t : Timestamp) (a : ParamSet) (ha : astro t = some a) :
    T t ≠ 0 ∧ a = astroTotal t := by
  by_cases hT : T t = 0
  · rw [astro_eq_none t hT] at ha
    exact absurd ha (by simp)
  · refine ⟨hT, ?_⟩
    rw [astro_eq_total t hT] at ha
    exact (Option.some_inj.mp ha).symm

/-- Python's `x % 360.0` is nonnegative (rational tier). -/
theorem mod360_nonneg (x : ℚ) : 0 ≤ mod360 x := by
  have h := Int.floor_le (x / 360)
  rw [le_div_iff₀ (by norm_num : (0 : ℚ) < 360)] at h
  rw [mod360]; linarith

/-- Python's `x % 360.0` is below `360` (rational tier). -/
theorem mod360_lt (x : ℚ) : mod360 x < 360 := by
  have h := Int.lt_floor_add_one (x / 360)
  rw [div_lt_iff₀ (by norm_num : (0 : ℚ) < 360)] at h
  rw [mod360]; linarith

/-- Python's `x % 360.0` is nonnegative (real tier). -/
theorem mod360R_nonneg (x : ℝ) : 0 ≤ mod360R x := by
  have h := Int.floor_le (x / 360)
  rw [le_div_iff₀ (by norm_num : (0 : ℝ) < 360)] at h
  rw [mod360R]; linarith

/-- Python's `x % 360.0` is below `360` (real tier). -/
theorem mod360R_lt (x : ℝ) : mod360R x < 360 := by
  have h := Int.lt_floor_add_one (x / 360)
  rw [div_lt_iff₀ (by norm_num : (0 : ℝ) < 360)] at h
  rw [mod360R]; linarith

/-- At the J2000 epoch the Julian-century argument is exactly `0`. -/
theorem T_epochJ2000 : T epochJ2000 = 0 := by
  norm_num [T, JD, epochJ2000]

/-- At the sample timestamp the Julian-century argument is nonzero. -/
theorem T_tSample : T tSample = 1 / 73050 := by
  norm_num [T, JD, tSample]

/-- One second before the epoch the Julian-century argument is a small
negative rational. -/
theorem T_tBeforeNoon : T tBeforeNoon = -(1 / 3155760000) := by
  norm_num [T, JD, tBeforeNoon]

/-- C7: `JD` reproduces the reference value: the Julian Date of
`2000-01-01T12:00:00` is exactly `2451545.0`. -/
theorem C7_jd_reference : JD epochJ2000 = 2451545 := by
  norm_num [JD, epochJ2000]

/-- C2 (code evaluated at the failing input): `polynomial` does return a value
on the coefficient tuple `(90.0,)` at argument `0.0`, but `d_polynomial` does
not — its `i = 0` generator term evaluates `0.0 ** -1`, which raises
`ZeroDivisionError` in Python, modelled by `none`.  So `d_polynomial` is not
total, contrary to the claim. -/
theorem C2_d_polynomial_not_total :
    polynomial ([90] : List ℚ) 0 = 90 ∧ d_polynomial [90] 0 = none := by
  constructor
  · norm_num [polynomial, polyAux]
  · simp [d_polynomial, dPolyAux, dTerm]

/-- C10: the lunar mean longitude table has exactly four coefficients, its
degree-3 coefficient is the merged literal `1/538841.0 - 1/65194000.0` (the
two literals form a single tuple element in the source), there is no degree-4
term, and `polynomial` consequently evaluates `s` as a cubic in Julian
centuries. -/
theorem C10_lunar_longitude_cubic :
    lunar_longitude_coefficients.length = 4 ∧
    lunar_longitude_coefficients.getD 3 0 = 1 / 538841 - 1 / 65194000 ∧
    ∀ x : ℚ, polynomial lunar_longitude_coefficients x =
      218.3164591 + 481267.88134236 * x + (-0.0013268) * x ^ 2
        + (1 / 538841 - 1 / 65194000) * x ^ 3 := by
  refine ⟨rfl, rfl, fun x => ?_⟩
  simp [polynomial, polyAux, lunar_longitude_coefficients]
  ring

/-- C4 (amended): whenever `astro` returns a parameter set, its `'90'` entry
has value exactly `90.0` and speed exactly `0.0` (the constant polynomial has
zero derivative). -/
theorem C4_ninety_entry (t : Timestamp) (a : ParamSet) (ha : astro t = some a) :
    a.ninety.value = 90 ∧ a.ninety.speed = 0 := by
  obtain ⟨hT, rfl⟩ := astro_some_inv t a ha
  constructor
  · show mod360 (polynomial [90] (T t)) = 90
    norm_num [polynomial, polyAux, mod360]
  · show specDerivSum [90] (T t) * dT_dHour = 0
    norm_num [specDerivSum, specDerivAux, specDerivTerm]

/-- C4 (counterexample): at the J2000 epoch timestamp the code raises
`ZeroDivisionError` (`T(t) = 0` reaches `0.0 ** -1` in `d_polynomial`), so
there is no `'90'` entry at all, let alone one with value `90.0`. -/
theorem C4_counterexample : ninetyEntryAt epochJ2000 = none := by
  rw [ninetyEntryAt, astro_eq_none epochJ2000 T_epochJ2000, Option.map_none']

/-- C4 witness: at the sample timestamp `astro` does return, and the theorem
applies. -/
theorem C4_witness :
    astro tSample = some (astroTotal tSample) ∧
      (astroTotal tSample).ninety.value = 90 ∧ (astroTotal tSample).ninety.speed = 0 := by
  have h : astro tSample = some (astroTotal tSample) :=
    astro_eq_total tSample (by rw [T_tSample]; norm_num)
  exact ⟨h, C4_ninety_entry tSample (astroTotal tSample) h⟩

/-- C6 (amended): whenever `astro` returns a parameter set `a`, the `'P'`
entry has value `(a.p.value - a.xi.value) % 360.0` — lunar perigee minus the
(stored) auxiliary `xi` angle — and no speed. -/
theorem C6_P_entry (t : Timestamp) (a : ParamSet) (ha : astro t = some a) :
    a.P.value = mod360R ((a.p.value : ℝ) - a.xi.value) ∧ a.P.speed = none := by
  obtain ⟨hT, rfl⟩ := astro_some_inv t a ha
  exact ⟨rfl, rfl⟩

/-- C6 (counterexample): at the J2000 epoch timestamp the code raises before
any entry is produced, so there is no `'P'` entry there. -/
theorem C6_counterexample : pEntryAt epochJ2000 = none := by
  rw [pEntryAt, astro_eq_none epochJ2000 T_epochJ2000, Option.map_none']

/-- C6 witness: at the sample timestamp `astro` returns and the theorem
applies. -/
theorem C6_witness :
    astro tSample = some (astroTotal tSample) ∧
      (astroTotal tSample).P.value =
        mod360R (((astroTotal tSample).p.value : ℝ) - (astroTotal tSample).xi.value) ∧
      (astroTotal tSample).P.speed = none := by
  have h : astro tSample = some (astroTotal tSample) :=
    astro_eq_total tSample (by rw [T_tSample]; norm_num)
  exact ⟨h, (C6_P_entry tSample (astroTotal tSample) h).1,
    (C6_P_entry tSample (astroTotal tSample) h).2⟩

/-- C9: whenever `astro` returns a parameter set, the `xi` entry is the raw
Schureman angle normalized by `% 360.0` (hence in `[0, 360)`) with speed
`None`, exactly the same shape as the other four nodal-correction entries
`I`, `nu`, `nup`, `nupp`. -/
theorem C9_xi_normalized (t : Timestamp) (a : ParamSet) (ha : astro t = some a) :
    a.xi.value = mod360R (_xi (a.N.value : ℝ) (a.i.value : ℝ) (a.omega.value : ℝ)) ∧
      0 ≤ a.xi.value ∧ a.xi.value < 360 ∧ a.xi.speed = none ∧
      a.I.value = mod360R (_I (a.N.value : ℝ) (a.i.value : ℝ) (a.omega.value : ℝ)) ∧
      a.nu.value = mod360R (_nu (a.N.value : ℝ) (a.i.value : ℝ) (a.omega.value : ℝ)) ∧
      a.nup.value = mod360R (_nup (a.N.value : ℝ) (a.i.value : ℝ) (a.omega.value : ℝ)) ∧
      a.nupp.value = mod360R (_nupp (a.N.value : ℝ) (a.i.value : ℝ) (a.omega.value : ℝ)) := by
  obtain ⟨hT, rfl⟩ := astro_some_inv t a ha
  exact ⟨rfl, mod360R_nonneg _, mod360R_lt _, rfl, rfl, rfl, rfl, rfl⟩

/-- C9 witness: at the sample timestamp `astro` returns and the theorem
applies (shown here for the defining equation and the range). -/
theorem C9_witness :
    astro tSample = some (astroTotal tSample) ∧
      (astroTotal tSample).xi.value =
        mod360R (_xi ((astroTotal tSample).N.value : ℝ) ((astroTotal tSample).i.value : ℝ)
          ((astroTotal tSample).omega.value : ℝ)) ∧
      0 ≤ (astroTotal tSample).xi.value ∧ (astroTotal tSample).xi.value < 360 ∧
      (astroTotal tSample).xi.speed = none := by
  have h : astro tSample = some (astroTotal tSample) :=
    astro_eq_total tSample (by rw [T_tSample]; norm_num)
  obtain ⟨h1, h2, h3, h4, -⟩ := C9_xi_normalized tSample (astroTotal tSample) h
  exact ⟨h, h1, h2, h3, h4⟩

/-- C3 (amended): whenever `astro` returns a parameter set `a`, the `'T+h-s'`
value is the plain combination `hourAngle + h - s` with
`hourAngle = (JD(t) mod 1) * 360`, with no `% 360` applied, and its speed is
`15.0 + h.speed - s.speed` with no normalization. -/
theorem C3_composite (t : Timestamp) (a : ParamSet) (ha : astro t = some a) :
    a.Ths.value = (JD t - (⌊JD t⌋ : ℚ)) * 360 + a.h.value - a.s.value ∧
      a.Ths.speed = 15 + a.h.speed - a.s.speed := by
  obtain ⟨hT, rfl⟩ := astro_some_inv t a ha
  exact ⟨rfl, rfl⟩

/-- C3 witness: at the sample timestamp `astro` returns and the theorem
applies. -/
theorem C3_witness :
    astro tSample = some (astroTotal tSample) ∧
      (astroTotal tSample).Ths.value =
        (JD tSample - (⌊JD tSample⌋ : ℚ)) * 360 + (astroTotal tSample).h.value
          - (astroTotal tSample).s.value ∧
      (astroTotal tSample).Ths.speed =
        15 + (astroTotal tSample).h.speed - (astroTotal tSample).s.speed := by
  have h : astro tSample = some (astroTotal tSample) :=
    astro_eq_total tSample (by rw [T_tSample]; norm_num)
  exact ⟨h, (C3_composite tSample (astroTotal tSample) h).1,
    (C3_composite tSample (astroTotal tSample) h).2⟩

/-- One second before the J2000 epoch the raw `'T+h-s'` combination exceeds a
full circle: the hour angle is `359.995833…`, `h ≈ 280.466`, `s ≈ 218.316`. -/
theorem ths_tBeforeNoon_ge : 360 ≤ (astroTotal tBeforeNoon).Ths.value := by
  show 360 ≤ (JD tBeforeNoon - (⌊JD tBeforeNoon⌋ : ℚ)) * 360
      + mod360 (polynomial solar_longitude_coefficients (T tBeforeNoon))
      - mod360 (polynomial lunar_longitude_coefficients (T tBeforeNoon))
  norm_num [JD, T, mod360, polynomial, polyAux, solar_longitude_coefficients,
    lunar_longitude_coefficients, tBeforeNoon]

/-- C1 (counterexample): at `2000-01-01T11:59:59` `astro` returns a parameter
set whose `'T+h-s'` value is at least `360`: that angular value is not
renormalized into `[0, 360)`. -/
theorem C1_counterexample :
    astro tBeforeNoon = some (astroTotal tBeforeNoon) ∧
      360 ≤ (astroTotal tBeforeNoon).Ths.value :=
  ⟨astro_eq_total tBeforeNoon (by rw [T_tBeforeNoon]; norm_num), ths_tBeforeNoon_ge⟩

/-- C3 (counterexample): at `2000-01-01T11:59:59` the `'T+h-s'` value differs
from `(hourAngle + h - s) mod 360`: the code stores the un-reduced
combination (about `422.15`), not its reduction mod `360`. -/
theorem C3_counterexample :
    astro tBeforeNoon = some (astroTotal tBeforeNoon) ∧
      (astroTotal tBeforeNoon).Ths.value ≠
        mod360 ((JD tBeforeNoon - (⌊JD tBeforeNoon⌋ : ℚ)) * 360
          + (astroTotal tBeforeNoon).h.value - (astroTotal tBeforeNoon).s.value) := by
  refine ⟨astro_eq_total tBeforeNoon (by rw [T_tBeforeNoon]; norm_num), ?_⟩
  have h3 : (astroTotal tBeforeNoon).Ths.value
      = (JD tBeforeNoon - (⌊JD tBeforeNoon⌋ : ℚ)) * 360
        + (astroTotal tBeforeNoon).h.value - (astroTotal tBeforeNoon).s.value := rfl
  rw [← h3]
  intro heq
  have hlt := mod360_lt ((astroTotal tBeforeNoon).Ths.value)
  rw [← heq] at hlt
  exact absurd ths_tBeforeNoon_ge (not_le.mpr hlt)

/-- C1 (amended): whenever `astro` returns a parameter set, every angular
value except `'T+h-s'` lies in `[0, 360)`; the `'T+h-s'` value is the plain
linear combination, with no renormalization applied. -/
theorem C1_angular_ranges (t : Timestamp) (a : ParamSet) (ha : astro t = some a) :
    (0 ≤ a.s.value ∧ a.s.value < 360) ∧
    (0 ≤ a.h.value ∧ a.h.value < 360) ∧
    (0 ≤ a.p.value ∧ a.p.value < 360) ∧
    (0 ≤ a.N.value ∧ a.N.value < 360) ∧
    (0 ≤ a.pp.value ∧ a.pp.value < 360) ∧
    (0 ≤ a.ninety.value ∧ a.ninety.value < 360) ∧
    (0 ≤ a.omega.value ∧ a.omega.value < 360) ∧
    (0 ≤ a.i.value ∧ a.i.value < 360) ∧
    (0 ≤ a.I.value ∧ a.I.value < 360) ∧
    (0 ≤ a.xi.value ∧ a.xi.value < 360) ∧
    (0 ≤ a.nu.value ∧ a.nu.value < 360) ∧
    (0 ≤ a.nup.value ∧ a.nup.value < 360) ∧
    (0 ≤ a.nupp.value ∧ a.nupp.value < 360) ∧
    (0 ≤ a.P.value ∧ a.P.value < 360) ∧
    a.Ths.value = (JD t - (⌊JD t⌋ : ℚ)) * 360 + a.h.value - a.s.value := by
  obtain ⟨hT, rfl⟩ := astro_some_inv t a ha
  exact ⟨⟨mod360_nonneg _, mod360_lt _⟩, ⟨mod360_nonneg _, mod360_lt _⟩,
    ⟨mod360_nonneg _, mod360_lt _⟩, ⟨mod360_nonneg _, mod360_lt _⟩,
    ⟨mod360_nonneg _, mod360_lt _⟩, ⟨mod360_nonneg _, mod360_lt _⟩,
    ⟨mod360_nonneg _, mod360_lt _⟩, ⟨mod360_nonneg _, mod360_lt _⟩,
    ⟨mod360R_nonneg _, mod360R_lt _⟩, ⟨mod360R_nonneg _, mod360R_lt _⟩,
    ⟨mod360R_nonneg _, mod360R_lt _⟩, ⟨mod360R_nonneg _, mod360R_lt _⟩,
    ⟨mod360R_nonneg _, mod360R_lt _⟩, ⟨mod360R_nonneg _, mod360R_lt _⟩, rfl⟩

/-- C1 witness: at the sample timestamp `astro` returns and the theorem
applies (shown for the `s` and `P` ranges). -/
theorem C1_witness :
    astro tSample = some (astroTotal tSample) ∧
      0 ≤ (astroTotal tSample).s.value ∧ (astroTotal tSample).s.value < 360 ∧
      0 ≤ (astroTotal tSample).P.value ∧ (astroTotal tSample).P.value < 360 := by
  have h : astro tSample = some (astroTotal tSample) :=
    astro_eq_total tSample (by rw [T_tSample]; norm_num)
  obtain ⟨⟨h1, h2⟩, -, -, -, -, -, -, -, -, -, -, -, -, ⟨h3, h4⟩, -⟩ :=
    C1_angular_ranges tSample (astroTotal tSample) h
  exact ⟨h, h1, h2, h3, h4⟩

/-- Shifting the starting index of `polyAux` multiplies the sum by `x`. -/
theorem polyAux_succ {K : Type} [Field K] (x : K) (i : ℕ) (cs : List K) :
    polyAux x (i + 1) cs = x * polyAux x i cs := by
  induction cs generalizing i with
  | nil => simp [polyAux]
  | cons c cs ih =>
      show c * x ^ (i + 1) + polyAux x (i + 2) cs = x * (c * x ^ i + polyAux x (i + 1) cs)
      rw [ih (i + 1)]
      ring

/-- Horner-style unfolding of `polynomial` on a head coefficient. -/
theorem polynomial_cons {K : Type} [Field K] (c : K) (cs : List K) (x : K) :
    polynomial (c :: cs) x = c + x * polynomial cs x := by
  show c * x ^ 0 + polyAux x 1 cs = c + x * polyAux x 0 cs
  rw [polyAux_succ]
  ring

/-- Index-shift law for the spec's derivative term. -/
theorem specDerivTerm_succ {K : Type} [Field K] (x : K) (i : ℕ) (c : K) :
    specDerivTerm x (i + 1) c = c * x ^ i + x * specDerivTerm x i c := by
  cases i with
  | zero => simp [specDerivTerm]
  | succ j =>
      show c * ((j + 2 : ℕ) : K) * x ^ (j + 1) = c * x ^ (j + 1) + x * (c * ((j + 1 : ℕ) : K) * x ^ j)
      push_cast
      ring

/-- Index-shift law for the spec's derivative accumulator. -/
theorem specDerivAux_succ {K : Type} [Field K] (x : K) (i : ℕ) (cs : List K) :
    specDerivAux x (i + 1) cs = polyAux x i cs + x * specDerivAux x i cs := by
  induction cs generalizing i with
  | nil => simp [specDerivAux, polyAux]
  | cons c cs ih =>
      show specDerivTerm x (i + 1) c + specDerivAux x (i + 2) cs
        = (c * x ^ i + polyAux x (i + 1) cs) + x * (specDerivTerm x i c + specDerivAux x (i + 1) cs)
      rw [ih (i + 1), specDerivTerm_succ]
      ring

/-- Horner-style unfolding of the spec's derivative sum on a head coefficient. -/
theorem specDerivSum_cons {K : Type} [Field K] (c : K) (cs : List K) (x : K) :
    specDerivSum (c :: cs) x = polynomial cs x + x * specDerivSum cs x := by
  show specDerivTerm x 0 c + specDerivAux x 1 cs = polyAux x 0 cs + x * specDerivAux x 0 cs
  rw [specDerivAux_succ, specDerivTerm]
  simp

/-- The spec's derivative sum really is the analytic first derivative of the
polynomial function. -/
theorem polynomial_hasDerivAt (cs : List ℝ) (x : ℝ) :
    HasDerivAt (fun y => polynomial cs y) (specDerivSum cs x) x := by
  induction cs with
  | nil =>
      have h : (fun y : ℝ => polynomial [] y) = fun _ => (0 : ℝ) := by
        funext y; rfl
      rw [h, show specDerivSum ([] : List ℝ) x = 0 from rfl]
      exact hasDerivAt_const x 0
  | cons c cs ih =>
      have h : (fun y : ℝ => polynomial (c :: cs) y) = fun y => c + y * polynomial cs y := by
        funext y; exact polynomial_cons c cs y
      rw [h, specDerivSum_cons]
      have h2 := (hasDerivAt_id x).mul ih
      simpa using h2.const_add c

/-- The cast of a spec derivative term from `ℚ` to `ℝ`. -/
theorem specDerivTerm_cast (x : ℚ) (i : ℕ) (c : ℚ) :
    ((specDerivTerm x i c : ℚ) : ℝ) = specDerivTerm (x : ℝ) i ((c : ℚ) : ℝ) := by
  cases i with
  | zero => simp [specDerivTerm]
  | succ j =>
      show ((c * ((j + 1 : ℕ) : ℚ) * x ^ j : ℚ) : ℝ) = (c : ℝ) * ((j + 1 : ℕ) : ℝ) * (x : ℝ) ^ j
      push_cast
      ring

/-- The cast of the spec derivative accumulator from `ℚ` to `ℝ`. -/
theorem specDerivAux_cast (x : ℚ) (i : ℕ) (cs : List ℚ) :
    ((specDerivAux x i cs : ℚ) : ℝ) = specDerivAux (x : ℝ) i (cs.map fun c => (c : ℝ)) := by
  induction cs generalizing i with
  | nil => simp [specDerivAux]
  | cons c cs ih =>
      show ((specDerivTerm x i c + specDerivAux x (i + 1) cs : ℚ) : ℝ) = _
      push_cast [specDerivTerm_cast, ih (i + 1)]
      rfl

/-- The cast of the spec derivative sum from `ℚ` to `ℝ`. -/
theorem specDerivSum_cast (cs : List ℚ) (x : ℚ) :
    ((specDerivSum cs x : ℚ) : ℝ) = specDerivSum (cs.map fun c => (c : ℝ)) (x : ℝ) :=
  specDerivAux_cast x 0 cs

/-- C5 (amended): away from argument `0`, `d_polynomial` returns exactly the
spec's sum `Σ c_i · i · x^(i-1)` with the `i = 0` term contributing zero, and
that sum is the analytic first derivative of `x ↦ polynomial(coefficients, x)`.
At `x = 0` with a nonempty coefficient list, `d_polynomial` raises instead
(see the counterexample). -/
theorem C5_d_polynomial_is_derivative (cs : List ℚ) (x : ℚ) (hx : x ≠ 0) :
    d_polynomial cs x = some (specDerivSum cs x) ∧
      HasDerivAt (polyFunR cs) ((specDerivSum cs x : ℚ) : ℝ) ((x : ℚ) : ℝ) := by
  refine ⟨d_polynomial_eq_specDerivSum cs x hx, ?_⟩
  rw [specDerivSum_cast]
  exact polynomial_hasDerivAt _ _

/-- C5 (counterexample): at argument `0` the claimed equality fails: on the
constant coefficient tuple `(1.0,)`, `d_polynomial` raises (`none`) rather
than returning the derivative sum (which is `0`). -/
theorem C5_counterexample :
    d_polynomial [1] 0 ≠ some (specDerivSum ([1] : List ℚ) 0) := by
  rw [d_polynomial_cons_zero 1 []]
  simp

/-- C5 witness: at coefficients `(2.0, 3.0)` and argument `1`, `d_polynomial`
returns the derivative sum, and that sum is the derivative of the polynomial
function at `1`. -/
theorem C5_witness :
    d_polynomial [2, 3] 1 = some (specDerivSum ([2, 3] : List ℚ) 1) ∧
      HasDerivAt (polyFunR [2, 3]) ((specDerivSum ([2, 3] : List ℚ) 1 : ℚ) : ℝ)
        (((1 : ℚ) : ℚ) : ℝ) :=
  C5_d_polynomial_is_derivative [2, 3] 1 (by norm_num)

/-- Evaluation of the year floor term by integer division. -/
theorem floor_helper_year (Y : ℤ) :
    ⌊(365.25 : ℚ) * ((Y : ℚ) + 4716)⌋ = 1461 * (Y + 4716) / 4 := by
  have h : (365.25 : ℚ) * ((Y : ℚ) + 4716) = ((1461 * (Y + 4716) : ℤ) : ℚ) / ((4 : ℕ) : ℚ) := by
    push_cast; ring
  rw [h, Rat.floor_intCast_div_natCast]
  norm_num

/-- Evaluation of the month floor term by integer division. -/
theorem floor_helper_month (M : ℤ) :
    ⌊(30.6001 : ℚ) * ((M : ℚ) + 1)⌋ = 306001 * (M + 1) / 10000 := by
  have h : (30.6001 : ℚ) * ((M : ℚ) + 1) = ((306001 * (M + 1) : ℤ) : ℚ) / ((10000 : ℕ) : ℚ) := by
    push_cast; ring
  rw [h, Rat.floor_intCast_div_natCast]
  norm_num

/-- Evaluation of the century floor term by integer division. -/
theorem floor_helper_div100 (a : ℤ) : ⌊(a : ℚ) / 100⌋ = a / 100 := by
  have h : (100 : ℚ) = ((100 : ℕ) : ℚ) := by norm_num
  rw [h, Rat.floor_intCast_div_natCast]
  norm_num

/-- Evaluation of the leap-century floor term by integer division. -/
theorem floor_helper_div4 (a : ℤ) : ⌊(a : ℚ) / 4⌋ = a / 4 := by
  have h : (4 : ℚ) = ((4 : ℕ) : ℚ) := by norm_num
  rw [h, Rat.floor_intCast_div_natCast]
  norm_num

/-- `JDwhole` as pure integer arithmetic (all floors eliminated). -/
theorem JDwhole_eq (y m d : ℕ) :
    JDwhole y m d =
      1461 * ((if (m : ℤ) ≤ 2 then (y : ℤ) - 1 else (y : ℤ)) + 4716) / 4
        + 306001 * ((if (m : ℤ) ≤ 2 then (m : ℤ) + 12 else (m : ℤ)) + 1) / 10000
        + d + (2 - (if (m : ℤ) ≤ 2 then (y : ℤ) - 1 else (y : ℤ)) / 100
        + (if (m : ℤ) ≤ 2 then (y : ℤ) - 1 else (y : ℤ)) / 100 / 4) := by
  simp only [JDwhole]
  rw [floor_helper_div100, floor_helper_div4, floor_helper_year, floor_helper_month]

/-- The Meeus formula splits into the whole-day part and the day fraction. -/
theorem JD_decomp (t : Timestamp) :
    JD t = (JDwhole t.year t.month t.day : ℚ)
      + (totalMicros t : ℚ) / 86400000000 - 1524.5 := by
  simp only [JD, JDwhole, totalMicros]
  push_cast
  ring

/-- `JDwhole` is linear in the day-of-month. -/
theorem JDwhole_day (y m d : ℕ) : JDwhole y m d = JDwhole y m 1 + d - 1 := by
  simp only [JDwhole]
  push_cast
  ring

/-- Every month has at least 28 days. -/
theorem daysInMonth_ge (y m : ℕ) : 28 ≤ daysInMonth y m := by
  unfold daysInMonth; split_ifs <;> omega

/-- The February-to-March step: this is where the Gregorian correction term
`B` and the leap-day validity rule must cancel exactly. -/
theorem JDwhole_feb_step (y : ℕ) :
    JDwhole y 3 1 = JDwhole y 2 1 + daysInMonth y 2 := by
  have h1 := JDwhole_eq y 2 1
  have h2 := JDwhole_eq y 3 1
  norm_num at h1 h2
  by_cases hl : isLeap y
  · have hl' : (y % 4 = 0 ∧ y % 100 ≠ 0) ∨ y % 400 = 0 := hl
    have hd : daysInMonth y 2 = 29 := by simp [daysInMonth, hl]
    rw [hd]
    rcases hl' with ⟨h4, h100⟩ | h400
    · omega
    · omega
  · have hl' : ¬ ((y % 4 = 0 ∧ y % 100 ≠ 0) ∨ y % 400 = 0) := hl
    have hd : daysInMonth y 2 = 28 := by simp [daysInMonth, hl]
    rw [hd]
    have hsplit : y % 4 = 1 ∨ y % 4 = 2 ∨ y % 4 = 3 ∨
        (y % 100 = 0 ∧ (y % 400 = 100 ∨ y % 400 = 200 ∨ y % 400 = 300)) := by
      omega
    rcases hsplit with h | h | h | ⟨h100, h | h | h⟩ <;> omega

/-- Stepping from the first of a month to the first of the next month (within
a year) advances `JDwhole` by exactly that month's length. -/
theorem JDwhole_month_step (y m : ℕ) (hm : 1 ≤ m) (hm' : m ≤ 11) :
    JDwhole y (m + 1) 1 = JDwhole y m 1 + daysInMonth y m := by
  rcases eq_or_ne m 2 with rfl | hm2
  · exact JDwhole_feb_step y
  · have h1 := JDwhole_eq y m 1
    have h2 := JDwhole_eq y (m + 1) 1
    interval_cases m <;> norm_num at h1 h2 <;> norm_num [daysInMonth] <;> omega

/-- The year step: December 1 to January 1 of the next year is 31 days
(here the January adjusted-year branch is exercised). -/
theorem JDwhole_year_step (y : ℕ) :
    JDwhole (y + 1) 1 1 = JDwhole y 12 1 + 31 := by
  have h1 := JDwhole_eq (y + 1) 1 1
  have h2 := JDwhole_eq y 12 1
  norm_num at h1 h2
  omega

/-- Advancing the month index advances `JDwhole` by the month length. -/
theorem monthIdxJD_step (k : ℕ) :
    monthIdxJD (k + 1) = monthIdxJD k + daysInMonth (k / 12) (k % 12 + 1) := by
  rcases Nat.lt_or_ge (k % 12) 11 with h | h
  · have e1 : (k + 1) / 12 = k / 12 := by omega
    have e2 : (k + 1) % 12 = k % 12 + 1 := by omega
    simp only [monthIdxJD]
    rw [e1, e2]
    exact JDwhole_month_step (k / 12) (k % 12 + 1) (by omega) (by omega)
  · have h11 : k % 12 = 11 := by omega
    have e1 : (k + 1) / 12 = k / 12 + 1 := by omega
    have e2 : (k + 1) % 12 = 0 := by omega
    simp only [monthIdxJD]
    rw [e1, e2, h11]
    norm_num [daysInMonth]
    rw [JDwhole_year_step (k / 12)]

/-- The month chain never decreases `JDwhole`. -/
theorem monthIdxJD_mono (n k : ℕ) : monthIdxJD k ≤ monthIdxJD (k + n) := by
  induction n with
  | zero => simp
  | succ n ih =>
      have h2 := monthIdxJD_step (k + n)
      have h3 := daysInMonth_ge ((k + n) / 12) ((k + n) % 12 + 1)
      have e : k + (n + 1) = (k + n) + 1 := rfl
      rw [e, h2]
      have h4 : (28 : ℤ) ≤ ((daysInMonth ((k + n) / 12) ((k + n) % 12 + 1) : ℕ) : ℤ) := by
        exact_mod_cast h3
      linarith

/-- Monotonicity of `monthIdxJD` along `≤`. -/
theorem monthIdxJD_le (k1 k2 : ℕ) (h : k1 ≤ k2) : monthIdxJD k1 ≤ monthIdxJD k2 := by
  obtain ⟨n, rfl⟩ := Nat.le.dest h
  exact monthIdxJD_mono n k1

/-- Month-index value at a calendar month position. -/
theorem monthIdxJD_eq (y m : ℕ) (hm : 1 ≤ m) (hm' : m ≤ 12) :
    monthIdxJD (12 * y + (m - 1)) = JDwhole y m 1 := by
  have e1 : (12 * y + (m - 1)) / 12 = y := by omega
  have e2 : (12 * y + (m - 1)) % 12 + 1 = m := by omega
  simp only [monthIdxJD]
  rw [e1, e2]

/-- Strict growth of `JDwhole` across lexicographically ordered valid dates. -/
theorem JDwhole_strict (y1 m1 d1 y2 m2 d2 : ℕ)
    (hm1 : 1 ≤ m1) (hm1' : m1 ≤ 12) (hd1 : 1 ≤ d1) (hd1' : d1 ≤ daysInMonth y1 m1)
    (hm2 : 1 ≤ m2) (hm2' : m2 ≤ 12) (hd2 : 1 ≤ d2)
    (hlt : y1 < y2 ∨ (y1 = y2 ∧ (m1 < m2 ∨ (m1 = m2 ∧ d1 < d2)))) :
    JDwhole y1 m1 d1 < JDwhole y2 m2 d2 := by
  have hday1 := JDwhole_day y1 m1 d1
  have hday2 := JDwhole_day y2 m2 d2
  by_cases hk : 12 * y1 + (m1 - 1) < 12 * y2 + (m2 - 1)
  · have hstep := monthIdxJD_step (12 * y1 + (m1 - 1))
    rw [monthIdxJD_eq y1 m1 hm1 hm1'] at hstep
    have e1 : (12 * y1 + (m1 - 1)) / 12 = y1 := by omega
    have e2 : (12 * y1 + (m1 - 1)) % 12 + 1 = m1 := by omega
    rw [e1, e2] at hstep
    have hle : monthIdxJD (12 * y1 + (m1 - 1) + 1) ≤ monthIdxJD (12 * y2 + (m2 - 1)) :=
      monthIdxJD_le _ _ (by omega)
    rw [hstep, monthIdxJD_eq y2 m2 hm2 hm2'] at hle
    have hcast : (d1 : ℤ) ≤ (daysInMonth y1 m1 : ℤ) := by exact_mod_cast hd1'
    have hd2c : (1 : ℤ) ≤ (d2 : ℤ) := by exact_mod_cast hd2
    linarith [hday1, hday2, hle, hcast, hd2c]
  · have hym : y1 = y2 ∧ m1 = m2 := by omega
    obtain ⟨rfl, rfl⟩ := hym
    have hd : (d1 : ℤ) < (d2 : ℤ) := by
      have hdn : d1 < d2 := by omega
      exact_mod_cast hdn
    linarith [hday1, hday2]

/-- A valid timestamp's intra-day microsecond count is below one day. -/
theorem totalMicros_lt (t : Timestamp) (ht : Valid t) :
    totalMicros t < 86400000000 := by
  obtain ⟨-, -, -, -, -, -, hh, hmi, hs, hus⟩ := ht
  unfold totalMicros
  omega

/-- C8: `JD` is strictly monotone in calendar order on valid timestamps; in
particular it increases across month and year rollovers such as
`1999-12-31T23:59:59.999999` to the instant after, which exercises the
January/February month-adjustment branch of the conversion. -/
theorem C8_jd_strict_mono (t1 t2 : Timestamp) (h1 : Valid t1) (h2 : Valid t2)
    (hlt : calLt t1 t2) : JD t1 < JD t2 := by
  have hf1 := totalMicros_lt t1 h1
  have hf0 : (0 : ℚ) ≤ (totalMicros t2 : ℚ) / 86400000000 := by positivity
  obtain ⟨hy1, hy1', hm1, hm1', hd1, hd1', hh1, hmi1, hs1, hus1⟩ := h1
  obtain ⟨hy2, hy2', hm2, hm2', hd2, hd2', hh2, hmi2, hs2, hus2⟩ := h2
  rw [JD_decomp t1, JD_decomp t2]
  by_cases hdate : t1.year = t2.year ∧ t1.month = t2.month ∧ t1.day = t2.day
  · obtain ⟨e1, e2, e3⟩ := hdate
    rw [e1, e2, e3]
    have hmic : totalMicros t1 < totalMicros t2 := by
      unfold calLt at hlt
      unfold totalMicros
      omega
    have hmic' : (totalMicros t1 : ℚ) < (totalMicros t2 : ℚ) := by exact_mod_cast hmic
    have hdiv : (totalMicros t1 : ℚ) / 86400000000
        < (totalMicros t2 : ℚ) / 86400000000 := by
      gcongr
    linarith
  · have hdlt : t1.year < t2.year ∨ (t1.year = t2.year ∧ (t1.month < t2.month ∨
        (t1.month = t2.month ∧ t1.day < t2.day))) := by
      unfold calLt at hlt
      omega
    have hw := JDwhole_strict t1.year t1.month t1.day t2.year t2.month t2.day
      hm1 hm1' hd1 hd1' hm2 hm2' hd2 hdlt
    have hw' : (JDwhole t1.year t1.month t1.day : ℚ) + 1
        ≤ (JDwhole t2.year t2.month t2.day : ℚ) := by
      exact_mod_cast Int.add_one_le_of_lt hw
    have hfr : (totalMicros t1 : ℚ) / 86400000000 < 1 := by
      rw [div_lt_one (by norm_num)]
      exact_mod_cast hf1
    linarith

/-- C8 witness: the rollover boundary pair satisfies the hypotheses, and `JD`
strictly increases across it. -/
theorem C8_witness :
    Valid tRollA ∧ Valid tRollB ∧ calLt tRollA tRollB ∧ JD tRollA < JD tRollB := by
  have h1 : Valid tRollA := by decide
  have h2 : Valid tRollB := by decide
  have h3 : calLt tRollA tRollB := by decide
  exact ⟨h1, h2, h3, C8_jd_strict_mono tRollA tRollB h1 h2 h3⟩

end Pytides
